import Mathlib

/-
Verification of the MACD backtesting engine (Backtester.py) of the
Trading-Bot-using-MACD-Strategy repository.

The engine is shallowly embedded: prices are rationals, a price series is a
list of time steps carrying the `Close`, `EMA` and `Long_Position` columns of
the data frame produced by `MACD_Strategy.get_data`, and the mutation of the
`Backtester` object is explicit state passing.  Python exceptions
(ZeroDivisionError, NameError, IndexError) are modelled by `Except String`.
-/

/-- One time step of the data frame consumed by `Backtester.add_data`:
the `Close`, `EMA` and `Long_Position` columns at one row. -/
structure Step where
  close : ℚ
  ema : ℚ
  long_position : ℚ
deriving DecidableEq

instance : Inhabited Step := ⟨⟨0, 0, 0⟩⟩

/-- The price series: the rows of the data frame in chronological order. -/
abbrev PriceSeries := List Step

/-- Column read `stock_data['Close'].iloc[i]`.  All accesses in the source are in bounds,
so the default value is never consulted by the embedded code paths. -/
def closeAt (s : PriceSeries) (i : ℕ) : ℚ := (s.getD i default).close

/-- Column read `stock_data['EMA'].iloc[i]`. -/
def emaAt (s : PriceSeries) (i : ℕ) : ℚ := (s.getD i default).ema

/-- Signal extraction `stock_data.loc[stock_data['Long_Position'] == 1].index`: the (positional)
indices of the rows whose `Long_Position` equals 1. -/
def signalIndices (s : PriceSeries) : List ℕ :=
  (List.range s.length).filter (fun i => decide ((s.getD i default).long_position = 1))

/-- Model of `Backtester.get_stop_loss`: `stop_loss = ratio * EMA`. -/
def get_stop_loss (ratio EMA : ℚ) : ℚ := ratio * EMA

/-- Model of `Backtester.get_take_profit`: `take_profit = ratio * stop_loss`. -/
def get_take_profit (ratio stop_loss : ℚ) : ℚ := ratio * stop_loss

/-- The `while moving_signal != len(stock_data)` loop of `Backtester.add_data`,
expressed structurally over the remaining suffix of the series.  At each step
the take-profit test comes first (`>=`), then the stop-loss test (`<=`), else
the walk advances; reaching the end of the series yields no win and no money. -/
def walkFrom (take_profit stop_loss money_lost : ℚ) : List Step → ℕ × ℚ
  | [] => (0, 0)
  | step :: rest =>
    if step.close ≥ take_profit then (1, take_profit)
    else if step.close ≤ stop_loss then (0, -money_lost)
    else walkFrom take_profit stop_loss money_lost rest

/-- The walk of `Backtester.add_data` starting with `moving_signal = i`:
the loop visits the rows `i, i+1, ...` of the series until it returns,
i.e. it processes the suffix `s.drop i`. -/
def walk (s : PriceSeries) (take_profit stop_loss money_lost : ℚ) (i : ℕ) : ℕ × ℚ :=
  walkFrom take_profit stop_loss money_lost (s.drop i)

/-- The body of the `for signal in signals` loop of `Backtester.add_data`:
derive the stop loss from the EMA at the signal row, the risked amount from the
close at the signal row, the take profit from the stop loss, then walk forward
from the signal row itself.  Returns (win increment, money increment). -/
def simulateSignal (s : PriceSeries) (stop profit : ℚ) (signal : ℕ) : ℕ × ℚ :=
  walk s (get_take_profit profit (get_stop_loss stop (emaAt s signal)))
    (get_stop_loss stop (emaAt s signal))
    (closeAt s signal - get_stop_loss stop (emaAt s signal))
    signal

/-- Accumulation of `current_wins` and `current_money` over all signals for one
`(stop, profit)` pair. -/
def trialResult (s : PriceSeries) (sigs : List ℕ) (stop profit : ℚ) : ℕ × ℚ :=
  sigs.foldl
    (fun acc sig =>
      (acc.1 + (simulateSignal s stop profit sig).1,
        acc.2 + (simulateSignal s stop profit sig).2))
    (0, 0)

/-- Line 98, `accuracy = current_wins / len(signals)`: the win rate of one trial,
whose denominator is the total signal count. -/
def trialAccuracy (s : PriceSeries) (sigs : List ℕ) (stop profit : ℚ) : ℚ :=
  ((trialResult s sigs stop profit).1 : ℚ) / (sigs.length : ℚ)

/-- Grid constant `self.profit_ratios = [1.25, 1.5, 1.75, 2, 2.25, 2.5, 2.75, 3]`. -/
def profit_ratios : List ℚ := [1.25, 1.5, 1.75, 2, 2.25, 2.5, 2.75, 3]

/-- Grid constant `self.stop_ratios = [0.95, 0.96, 0.97, 0.98, 0.99, 1]`. -/
def stop_ratios : List ℚ := [0.95, 0.96, 0.97, 0.98, 0.99, 1]

/-- The running-best state of the grid search in `Backtester.add_data`:
`greatest_accuracy`, `greatest_money`, and the pair
`(best_profit_ratio, best_stop_ratio)`, which Python leaves unbound (`none`)
until the first replacement assigns it. -/
structure SearchState where
  greatest_accuracy : ℚ
  greatest_money : ℚ
  best : Option (ℚ × ℚ)
deriving DecidableEq

/-- Initial state: `greatest_accuracy = 0`, `greatest_money = 0`, best pair not yet bound. -/
def initSearch : SearchState := ⟨0, 0, none⟩

/-- One iteration of the inner `for profit in self.profit_ratios` loop:
`if (accuracy > greatest_accuracy) or (current_money >= greatest_money)` then
all four running-best values are overwritten, else the state is unchanged. -/
def gridStep (s : PriceSeries) (sigs : List ℕ) (st : SearchState) (stop profit : ℚ) :
    SearchState :=
  if trialAccuracy s sigs stop profit > st.greatest_accuracy ∨
      (trialResult s sigs stop profit).2 ≥ st.greatest_money then
    ⟨trialAccuracy s sigs stop profit, (trialResult s sigs stop profit).2,
      some (profit, stop)⟩
  else st

/-- The nested `for stop in self.stop_ratios: for profit in self.profit_ratios`
loops of `Backtester.add_data`. -/
def gridSearch (s : PriceSeries) (sigs : List ℕ) : SearchState :=
  stop_ratios.foldl
    (fun st stop => profit_ratios.foldl (fun st profit => gridStep s sigs st stop profit) st)
    initSearch

/-- A stock is viable when its full grid search ends with
`greatest_accuracy != 0` (the test on line 104 of Backtester.py). -/
def viable (stock_data : PriceSeries) : Bool :=
  decide ((gridSearch stock_data (signalIndices stock_data)).greatest_accuracy ≠ 0)

/-- The fields of `MACD_Strategy` that the backtester reads or writes:
the data frame returned by `get_data`, and the live configuration
(`ratio`, `stop_loss_percentage`, `winrate`). -/
structure MACD_Strategy where
  symbol : String
  data : PriceSeries
  ratio : ℚ
  stop_loss_percentage : ℚ
  winrate : ℚ
deriving DecidableEq

/-- A freshly constructed `MACD_Strategy`: `ratio = 1.5`,
`stop_loss_percentage = 0.95`, `winrate = 1`. -/
def MACD_Strategy.new (symbol : String) (data : PriceSeries) : MACD_Strategy :=
  ⟨symbol, data, 1.5, 0.95, 1⟩

/-- The mutable state of a `Backtester` object. -/
structure Backtester where
  stocks : List MACD_Strategy
  optimal_profit_ratio : List ℚ
  optimal_risk_ratio : List ℚ
  winrates : List ℚ
  money_made : List ℚ
  remove_stocks : List MACD_Strategy
deriving DecidableEq

/-- Model of `Backtester.__init__`: the outcome lists start empty. -/
def Backtester.new (stocks : List MACD_Strategy) : Backtester :=
  ⟨stocks, [], [], [], [], []⟩

/-- Model of `Backtester.add_data`.  When the stock has no signals the first
`accuracy = current_wins / len(signals)` on line 98 raises ZeroDivisionError
(the ratio grids are nonempty constants, so the loops always reach line 98).
Otherwise, if the final `greatest_accuracy` is nonzero the four outcome lists
each gain that stock's best values (were `best_profit_ratio` unbound here,
Python would raise NameError), else the stock is appended to `remove_stocks`. -/
def Backtester.add_data (bt : Backtester) (stock : MACD_Strategy) :
    Except String Backtester :=
  if (signalIndices stock.data).length = 0 then Except.error "division by zero"
  else
    let final := gridSearch stock.data (signalIndices stock.data)
    if final.greatest_accuracy ≠ 0 then
      match final.best with
      | some pr =>
        Except.ok { bt with
          optimal_profit_ratio := bt.optimal_profit_ratio ++ [pr.1],
          optimal_risk_ratio := bt.optimal_risk_ratio ++ [pr.2],
          winrates := bt.winrates ++ [final.greatest_accuracy],
          money_made := bt.money_made ++ [final.greatest_money] }
      | none => Except.error "name best_profit_ratio is not defined"
    else Except.ok { bt with remove_stocks := bt.remove_stocks ++ [stock] }

/-- Lines 40-45 of `Backtester.execute`: reset the four outcome lists and
`remove_stocks` to empty (the stock list is untouched). -/
def Backtester.cleared (bt : Backtester) : Backtester :=
  { bt with
    optimal_profit_ratio := [], optimal_risk_ratio := [],
    winrates := [], money_made := [], remove_stocks := [] }

/-- Model of `Backtester.execute`: clear the outcome lists and `remove_stocks`, run
`add_data` over the (unchanged) stock list, then `list.remove` each flagged
stock from `self.stocks` (first structurally equal occurrence). -/
def Backtester.execute (bt : Backtester) : Except String Backtester :=
  match bt.stocks.foldlM (fun b s => b.add_data s) bt.cleared with
  | Except.error e => Except.error e
  | Except.ok bt1 =>
    Except.ok { bt1 with
      stocks := bt1.remove_stocks.foldl (fun l s => l.erase s) bt1.stocks }

/-- Lines 166-168 of `Backtester.add_stock`: set the `ratio`,
`stop_loss_percentage` and `winrate` of `self.stocks[-1]` from the last
entries of the outcome lists.  `[-1]` on an empty list raises IndexError. -/
def set_last_params (bt1 : Backtester) : Except String Backtester :=
  match bt1.stocks.getLast?, bt1.optimal_profit_ratio.getLast?,
      bt1.optimal_risk_ratio.getLast?, bt1.winrates.getLast? with
  | some last, some p, some r, some w =>
    Except.ok { bt1 with
      stocks := bt1.stocks.dropLast ++
        [{ last with ratio := p, stop_loss_percentage := r, winrate := w }] }
  | _, _, _, _ => Except.error "list index out of range"

/-- Model of `Backtester.add_stock`: run `add_data` on the argument, then set the
parameters of `self.stocks[-1]` — not of the argument, and without ever
appending the argument to `self.stocks` — from the last entries of the
outcome lists. -/
def Backtester.add_stock (bt : Backtester) (stock : MACD_Strategy) :
    Except String Backtester :=
  match bt.add_data stock with
  | Except.error e => Except.error e
  | Except.ok bt1 => set_last_params bt1

/-- Model of `Backtester.remove_stock`: pop `index` from the four outcome lists
(`self.stocks` is not touched).  `list.pop` raises IndexError when the index
is out of range. -/
def Backtester.remove_stock (bt : Backtester) (index : ℕ) : Except String Backtester :=
  if index < bt.winrates.length ∧ index < bt.optimal_profit_ratio.length ∧
      index < bt.optimal_risk_ratio.length ∧ index < bt.money_made.length then
    Except.ok { bt with
      winrates := bt.winrates.eraseIdx index,
      optimal_profit_ratio := bt.optimal_profit_ratio.eraseIdx index,
      optimal_risk_ratio := bt.optimal_risk_ratio.eraseIdx index,
      money_made := bt.money_made.eraseIdx index }
  else Except.error "pop index out of range"

/-- Demo series: one signal at row 0, close 100 strictly between every grid
stop level (at most 100) and target level (at least 118.75); with stop ratio
0.95 and profit ratio 1.25 the walk never resolves. -/
def demoFlat : PriceSeries := [⟨100, 100, 1⟩]

/-- Demo series: one signal at row 0 whose own close 200 already exceeds every
target level of the grid. -/
def demoImm : PriceSeries := [⟨200, 100, 1⟩]

/-- Demo series: signal at row 0 advances (close 100 between 95 and the
target), then row 1 hits every target level of the grid. -/
def demoWinSeries : PriceSeries := [⟨100, 100, 1⟩, ⟨200, 100, 0⟩]

/-- Demo series: one signal whose close 90 is at or below every stop level of
the grid, so every trial is an immediate stop-out and no trial ever wins. -/
def demoLoseSeries : PriceSeries := [⟨90, 100, 1⟩]

/-- Demo series with no entry signal at all. -/
def demoNoSigSeries : PriceSeries := [⟨100, 100, 0⟩]

/-- Helper: a `foldl` over the cross product `xs × ys` (built with `bind` and
`map`) is the nested `foldl` over `xs` and `ys`. -/
theorem foldl_bind_product {α β σ : Type} (xs : List α) (ys : List β)
    (f : σ → α → β → σ) (init : σ) :
    (xs.flatMap (fun x => ys.map (fun y => (x, y)))).foldl (fun st p => f st p.1 p.2) init =
      xs.foldl (fun st x => ys.foldl (fun st y => f st x y) st) init := by
  induction xs generalizing init with
  | nil => rfl
  | cons x xs ih =>
    simp only [List.flatMap_cons, List.foldl_append, List.foldl_map, List.foldl_cons]
    rw [ih]

/-- Helper: `closeAt` reads the indexed element when the index is in bounds. -/
theorem closeAt_eq_getElem (s : PriceSeries) (i : ℕ) (h : i < s.length) :
    closeAt s i = s[i].close := by
  rw [closeAt, List.getD_eq_getElem s default h]

/-- Helper: one step of the forward walk at an in-bounds index. -/
theorem walk_step (s : PriceSeries) (tp sl ml : ℚ) (i : ℕ) (h : i < s.length) :
    walk s tp sl ml i =
      if closeAt s i ≥ tp then (1, tp)
      else if closeAt s i ≤ sl then (0, -ml)
      else walk s tp sl ml (i + 1) := by
  rw [walk, walk, List.drop_eq_getElem_cons h, walkFrom, closeAt_eq_getElem s i h]

/-- Helper: the walk stops with no win and no money at the end of the series. -/
theorem walk_end (s : PriceSeries) (tp sl ml : ℚ) (i : ℕ) (h : s.length ≤ i) :
    walk s tp sl ml i = (0, 0) := by
  rw [walk, List.drop_eq_nil_of_le h, walkFrom]

/-- C1: The grid search iterates the full cross product of stop ratios (outer,
in listed order) and profit ratios (inner, in listed order); a trial replaces
the running best exactly when its win rate is strictly greater than the best
accuracy so far OR its cumulative profit is at least the best money so far,
and a replacement overwrites all four best values (accuracy, money, profit
ratio, stop ratio) together. -/
theorem grid_search_cross_product_selection (s : PriceSeries) (sigs : List ℕ) :
    gridSearch s sigs =
      (stop_ratios.flatMap (fun stop => profit_ratios.map (fun profit => (stop, profit)))).foldl
        (fun st pr =>
          if trialAccuracy s sigs pr.1 pr.2 > st.greatest_accuracy ∨
              (trialResult s sigs pr.1 pr.2).2 ≥ st.greatest_money then
            ⟨trialAccuracy s sigs pr.1 pr.2, (trialResult s sigs pr.1 pr.2).2,
              some (pr.2, pr.1)⟩
          else st)
        initSearch :=
  (foldl_bind_product stop_ratios profit_ratios
    (fun st stop profit => gridStep s sigs st stop profit) initSearch).symm

/-- C2: Simulating one signal walks forward through the series; at each step,
the close at or above the target level is a win with profit contribution equal
to the target level (closed interval, target checked first), otherwise a close
at or below the stop level is a loss with contribution
`-(close[signal] - stopLevel)`, otherwise the walk advances; with
`stopLevel = stopRatio * EMA[signal]` and
`targetLevel = profitRatio * stopLevel`. -/
theorem trade_simulation_step_semantics (s : PriceSeries) (stop profit : ℚ) (sig : ℕ) :
    get_stop_loss stop (emaAt s sig) = stop * emaAt s sig ∧
    get_take_profit profit (get_stop_loss stop (emaAt s sig)) =
      profit * get_stop_loss stop (emaAt s sig) ∧
    simulateSignal s stop profit sig =
      walk s (get_take_profit profit (get_stop_loss stop (emaAt s sig)))
        (get_stop_loss stop (emaAt s sig))
        (closeAt s sig - get_stop_loss stop (emaAt s sig)) sig ∧
    (∀ tp sl ml t, t < s.length →
      (closeAt s t ≥ tp → walk s tp sl ml t = (1, tp)) ∧
      (¬ closeAt s t ≥ tp → closeAt s t ≤ sl → walk s tp sl ml t = (0, -ml)) ∧
      (¬ closeAt s t ≥ tp → ¬ closeAt s t ≤ sl →
        walk s tp sl ml t = walk s tp sl ml (t + 1))) := by
  refine ⟨rfl, rfl, rfl, fun tp sl ml t ht => ?_⟩
  rw [walk_step s tp sl ml t ht]
  exact ⟨fun h1 => by rw [if_pos h1], fun h1 h2 => by rw [if_neg h1, if_pos h2],
    fun h1 h2 => by rw [if_neg h1, if_neg h2]⟩

/-- C2 witness: at the closed-interval boundary `close == targetLevel` the
walk records a win with profit equal to the target level. -/
theorem trade_simulation_step_semantics_witness :
    (0 : ℕ) < demoFlat.length ∧ closeAt demoFlat 0 ≥ 100 ∧
      walk demoFlat 100 90 5 0 = (1, 100) := by
  refine ⟨by norm_num [demoFlat], by norm_num [demoFlat, closeAt], ?_⟩
  exact ((trade_simulation_step_semantics demoFlat 1 1 0).2.2.2 100 90 5 0
    (by norm_num [demoFlat])).1 (by norm_num [demoFlat, closeAt])

/-- C10: The forward walk starts at the signal index itself: a close already
at or above the target level there is an immediate win with profit equal to
the target level, a close at or below the stop level (and below the target)
an immediate loss, regardless of any later step; and the walk terminates,
returning (0, 0) once the index reaches the series length and otherwise
strictly increasing the index. -/
theorem walk_starts_at_signal_index (s : PriceSeries) (stop profit : ℚ) (sig : ℕ)
    (h : sig < s.length) :
    (closeAt s sig ≥ get_take_profit profit (get_stop_loss stop (emaAt s sig)) →
      simulateSignal s stop profit sig =
        (1, get_take_profit profit (get_stop_loss stop (emaAt s sig)))) ∧
    (¬ closeAt s sig ≥ get_take_profit profit (get_stop_loss stop (emaAt s sig)) →
      closeAt s sig ≤ get_stop_loss stop (emaAt s sig) →
      simulateSignal s stop profit sig =
        (0, -(closeAt s sig - get_stop_loss stop (emaAt s sig)))) ∧
    (∀ tp sl ml i, s.length ≤ i → walk s tp sl ml i = (0, 0)) ∧
    (∀ tp sl ml i, i < s.length → ¬ closeAt s i ≥ tp → ¬ closeAt s i ≤ sl →
      walk s tp sl ml i = walk s tp sl ml (i + 1)) := by
  refine ⟨fun h1 => ?_, fun h1 h2 => ?_, fun tp sl ml i hi => walk_end s tp sl ml i hi,
    fun tp sl ml i hi h1 h2 => ?_⟩
  · rw [simulateSignal, walk_step _ _ _ _ _ h, if_pos h1]
  · rw [simulateSignal, walk_step _ _ _ _ _ h, if_neg h1, if_pos h2]
  · rw [walk_step s tp sl ml i hi, if_neg h1, if_neg h2]

/-- C10 witness: a signal whose own close (200) is already at or above the
target level 118.75 is an immediate win. -/
theorem walk_starts_at_signal_index_witness :
    (0 : ℕ) < demoImm.length ∧
      closeAt demoImm 0 ≥ get_take_profit 1.25 (get_stop_loss 0.95 (emaAt demoImm 0)) ∧
      simulateSignal demoImm 0.95 1.25 0 = (1, 118.75) := by
  refine ⟨by norm_num [demoImm], ?_, ?_⟩
  · norm_num [demoImm, closeAt, emaAt, get_stop_loss, get_take_profit]
  · have h := (walk_starts_at_signal_index demoImm 0.95 1.25 0 (by norm_num [demoImm])).1
      (by norm_num [demoImm, closeAt, emaAt, get_stop_loss, get_take_profit])
    rw [h]
    norm_num [demoImm, emaAt, get_stop_loss, get_take_profit]

/-- Helper: a walk through steps whose closes stay strictly between the stop
level and the target level returns no win and no money. -/
theorem walkFrom_unresolved (tp sl ml : ℚ) (rest : List Step)
    (h : ∀ st ∈ rest, sl < st.close ∧ st.close < tp) :
    walkFrom tp sl ml rest = (0, 0) := by
  induction rest with
  | nil => rfl
  | cons a rest ih =>
    have ha := h a (List.mem_cons_self a rest)
    rw [walkFrom, if_neg (not_le.mpr ha.2), if_neg (not_le.mpr ha.1)]
    exact ih (fun st hst => h st (List.mem_cons_of_mem a hst))

/-- C3: A signal whose forward walk never meets the target or stop condition
contributes nothing to the win count and nothing to the cumulative profit,
yet the trial's win rate still divides by the total signal count, so the
unresolved signal stays in the denominator. -/
theorem unresolved_signal_stays_in_denominator (s : PriceSeries) (stop profit : ℚ)
    (sig : ℕ) (sigs : List ℕ)
    (h : ∀ t, sig ≤ t → t < s.length →
      get_stop_loss stop (emaAt s sig) < closeAt s t ∧
      closeAt s t < get_take_profit profit (get_stop_loss stop (emaAt s sig))) :
    simulateSignal s stop profit sig = (0, 0) ∧
    trialResult s (sigs ++ [sig]) stop profit = trialResult s sigs stop profit ∧
    trialAccuracy s (sigs ++ [sig]) stop profit =
      ((trialResult s sigs stop profit).1 : ℚ) / ((sigs.length : ℚ) + 1) := by
  have h0 : simulateSignal s stop profit sig = (0, 0) := by
    rw [simulateSignal, walk]
    apply walkFrom_unresolved
    intro st hst
    rw [List.mem_iff_getElem] at hst
    obtain ⟨j, hj, hst⟩ := hst
    have hj' : sig + j < s.length := by
      rw [List.length_drop] at hj
      omega
    have hget : (s.drop sig)[j] = s[sig + j] := by
      rw [List.getElem_drop]
    rw [hget] at hst
    have := h (sig + j) (Nat.le_add_right sig j) hj'
    rwa [closeAt_eq_getElem s (sig + j) hj', hst] at this
  have h1 : trialResult s (sigs ++ [sig]) stop profit = trialResult s sigs stop profit := by
    rw [trialResult, trialResult, List.foldl_append, List.foldl_cons, List.foldl_nil, h0]
    simp
  refine ⟨h0, h1, ?_⟩
  rw [trialAccuracy, h1, List.length_append]
  push_cast
  norm_num

/-- C3 witness: the single signal of `demoFlat` stays strictly between stop
level 95 and target level 118.75, contributes (0, 0), and still raises the
denominator from 0 to 1. -/
theorem unresolved_signal_stays_in_denominator_witness :
    simulateSignal demoFlat 0.95 1.25 0 = (0, 0) ∧
    trialResult demoFlat ([] ++ [0]) 0.95 1.25 = trialResult demoFlat [] 0.95 1.25 ∧
    trialAccuracy demoFlat ([] ++ [0]) 0.95 1.25 =
      ((trialResult demoFlat [] 0.95 1.25).1 : ℚ) / ((List.length ([] : List ℕ) : ℚ) + 1) := by
  apply unresolved_signal_stays_in_denominator
  intro t ht0 ht1
  have ht : t = 0 := by
    simp only [demoFlat, List.length_cons, List.length_nil] at ht1
    omega
  subst ht
  constructor <;> norm_num [demoFlat, closeAt, emaAt, get_stop_loss, get_take_profit]

/-- Helper: one simulated signal records at most one win. -/
theorem walkFrom_fst_le_one (tp sl ml : ℚ) (rest : List Step) :
    (walkFrom tp sl ml rest).1 ≤ 1 := by
  induction rest with
  | nil => exact Nat.zero_le 1
  | cons a rest ih =>
    rw [walkFrom]
    split
    · exact le_refl 1
    split
    · exact Nat.zero_le 1
    · exact ih

/-- Helper: the win count accumulated over a list of signals grows by at most
one per signal. -/
theorem trialResult_foldl_fst_le (s : PriceSeries) (stop profit : ℚ) (sigs : List ℕ) :
    ∀ acc : ℕ × ℚ,
      (sigs.foldl
        (fun acc sig =>
          (acc.1 + (simulateSignal s stop profit sig).1,
            acc.2 + (simulateSignal s stop profit sig).2)) acc).1 ≤
      acc.1 + sigs.length := by
  induction sigs with
  | nil => intro acc; rw [List.foldl_nil]; omega
  | cons sig sigs ih =>
    intro acc
    rw [List.foldl_cons]
    have h1 := ih (acc.1 + (simulateSignal s stop profit sig).1,
      acc.2 + (simulateSignal s stop profit sig).2)
    have h2 : (simulateSignal s stop profit sig).1 ≤ 1 :=
      walkFrom_fst_le_one _ _ _ _
    simp only [List.length_cons]
    omega

/-- Helper: the win count of a trial never exceeds the signal count. -/
theorem trialResult_fst_le_length (s : PriceSeries) (stop profit : ℚ) (sigs : List ℕ) :
    (trialResult s sigs stop profit).1 ≤ sigs.length := by
  rw [trialResult]
  simpa using trialResult_foldl_fst_le s stop profit sigs (0, 0)

/-- C9: For a series with at least one entry signal and any grid pair, the
trial's win rate `winCount / totalSignals` lies in the closed interval [0, 1],
because each signal's simulation increments the win count at most once. -/
theorem trial_win_rate_in_unit_interval (s : PriceSeries) (stop profit : ℚ)
    (h : signalIndices s ≠ []) (_hs : stop ∈ stop_ratios) (_hp : profit ∈ profit_ratios) :
    0 ≤ trialAccuracy s (signalIndices s) stop profit ∧
      trialAccuracy s (signalIndices s) stop profit ≤ 1 := by
  have hlen : (0 : ℚ) < ((signalIndices s).length : ℚ) := by
    have hp0 : 0 < (signalIndices s).length := List.length_pos.mpr h
    exact_mod_cast hp0
  constructor
  · exact div_nonneg (by positivity) (le_of_lt hlen)
  · rw [trialAccuracy, div_le_one hlen]
    exact_mod_cast trialResult_fst_le_length s stop profit (signalIndices s)

/-- C9 witness: the single-signal series `demoFlat` with the first grid pair
has win rate inside [0, 1]. -/
theorem trial_win_rate_in_unit_interval_witness :
    0 ≤ trialAccuracy demoFlat (signalIndices demoFlat) 0.95 1.25 ∧
      trialAccuracy demoFlat (signalIndices demoFlat) 0.95 1.25 ≤ 1 := by
  apply trial_win_rate_in_unit_interval
  · norm_num [signalIndices, demoFlat, List.filter]
  · norm_num [stop_ratios]
  · norm_num [profit_ratios]

/-- Helper: a property preserved by every step of a `foldl` holds of its
result. -/
theorem foldl_invariant {σ α : Type} (P : σ → Prop) (f : σ → α → σ)
    (hf : ∀ st a, P st → P (f st a)) :
    ∀ (l : List α) (st : σ), P st → P (l.foldl f st) := by
  intro l
  induction l with
  | nil => intro st h; exact h
  | cons a l ih =>
    intro st h
    rw [List.foldl_cons]
    exact ih _ (hf st a h)

/-- Helper: a grid-search state whose best pair is still unassigned has
`greatest_accuracy = 0`; hence a nonzero final accuracy means the best pair
was assigned (Python would otherwise raise NameError on line 105). -/
theorem gridSearch_best_isSome (s : PriceSeries) (sigs : List ℕ)
    (h : (gridSearch s sigs).greatest_accuracy ≠ 0) :
    (gridSearch s sigs).best.isSome := by
  have hstep : ∀ (st : SearchState) (stop profit : ℚ),
      (st.best = none → st.greatest_accuracy = 0) →
      ((gridStep s sigs st stop profit).best = none →
        (gridStep s sigs st stop profit).greatest_accuracy = 0) := by
    intro st stop profit hst
    rw [gridStep]
    split
    · intro hnone
      exact absurd hnone (by simp)
    · exact hst
  have hmain : (gridSearch s sigs).best = none → (gridSearch s sigs).greatest_accuracy = 0 := by
    rw [gridSearch]
    apply foldl_invariant (fun st : SearchState => st.best = none → st.greatest_accuracy = 0)
    · intro st stop hst
      exact foldl_invariant _ _ (fun st' profit h' => hstep st' stop profit h') profit_ratios st hst
    · intro hnone
      rfl
  cases hb : (gridSearch s sigs).best with
  | none => exact absurd (hmain hb) h
  | some pr => rfl

/-- Helper: on a stock with at least one signal, `add_data` appends the best
values of a viable stock to the four outcome lists, and appends an unviable
stock to `remove_stocks`. -/
theorem add_data_eq_of_signals (bt : Backtester) (stock : MACD_Strategy)
    (h : signalIndices stock.data ≠ []) :
    bt.add_data stock =
      if viable stock.data then
        Except.ok { bt with
          optimal_profit_ratio := bt.optimal_profit_ratio ++
            [((gridSearch stock.data (signalIndices stock.data)).best.getD (0, 0)).1],
          optimal_risk_ratio := bt.optimal_risk_ratio ++
            [((gridSearch stock.data (signalIndices stock.data)).best.getD (0, 0)).2],
          winrates := bt.winrates ++
            [(gridSearch stock.data (signalIndices stock.data)).greatest_accuracy],
          money_made := bt.money_made ++
            [(gridSearch stock.data (signalIndices stock.data)).greatest_money] }
      else Except.ok { bt with remove_stocks := bt.remove_stocks ++ [stock] } := by
  have hlen : ¬ (signalIndices stock.data).length = 0 := by
    intro hx
    exact h (List.length_eq_zero.mp hx)
  by_cases hv : (gridSearch stock.data (signalIndices stock.data)).greatest_accuracy = 0
  · have hvb : viable stock.data = false := by simp [viable, hv]
    rw [Backtester.add_data, if_neg hlen, hvb]
    simp only [Bool.false_eq_true, if_false]
    rw [if_neg (by simpa using hv)]
  · have hvb : viable stock.data = true := by simp [viable]; exact hv
    obtain ⟨pr, hpr⟩ := Option.isSome_iff_exists.mp
      (gridSearch_best_isSome stock.data (signalIndices stock.data) hv)
    rw [Backtester.add_data, if_neg hlen, hvb]
    simp only [if_true]
    rw [if_pos (by simpa using hv), hpr]
    simp

/-- Helper: a successful `add_data` call implies the stock had signals, and
the new state is the viable append or the removal append. -/
theorem add_data_ok_elim (bt : Backtester) (stock : MACD_Strategy) (b' : Backtester)
    (h : bt.add_data stock = Except.ok b') :
    signalIndices stock.data ≠ [] ∧
    ((viable stock.data = true ∧
        b' = { bt with
          optimal_profit_ratio := bt.optimal_profit_ratio ++
            [((gridSearch stock.data (signalIndices stock.data)).best.getD (0, 0)).1],
          optimal_risk_ratio := bt.optimal_risk_ratio ++
            [((gridSearch stock.data (signalIndices stock.data)).best.getD (0, 0)).2],
          winrates := bt.winrates ++
            [(gridSearch stock.data (signalIndices stock.data)).greatest_accuracy],
          money_made := bt.money_made ++
            [(gridSearch stock.data (signalIndices stock.data)).greatest_money] }) ∨
      (viable stock.data = false ∧
        b' = { bt with remove_stocks := bt.remove_stocks ++ [stock] })) := by
  have hsig : signalIndices stock.data ≠ [] := by
    intro hx
    rw [Backtester.add_data, if_pos (by rw [hx]; rfl)] at h
    exact Except.noConfusion h
  refine ⟨hsig, ?_⟩
  rw [add_data_eq_of_signals bt stock hsig] at h
  by_cases hv : viable stock.data = true
  · rw [if_pos hv] at h
    exact Or.inl ⟨hv, (Except.ok.inj h).symm⟩
  · rw [if_neg hv] at h
    exact Or.inr ⟨Bool.not_eq_true _ ▸ hv, (Except.ok.inj h).symm⟩

/-- C8 (amended): on a stock with zero entry signals, `add_data` fails fast
with Python's bare ZeroDivisionError (modelled as the error string
"division by zero"), coming from `current_wins / len(signals)`. -/
theorem no_signals_division_by_zero (bt : Backtester) (stock : MACD_Strategy)
    (h : signalIndices stock.data = []) :
    bt.add_data stock = Except.error "division by zero" := by
  rw [Backtester.add_data, if_pos (by rw [h]; rfl)]

/-- Demo stock with no entry signal. -/
def noSigStock : MACD_Strategy := MACD_Strategy.new "ABNB" demoNoSigSeries

/-- Helper: the no-signal demo series really has no signal rows. -/
theorem signalIndices_demoNoSig : signalIndices demoNoSigSeries = [] := by
  norm_num [signalIndices, demoNoSigSeries, List.filter]

/-- C8 counterexample: with zero entry signals the grid search stops with the
bare "division by zero" error, not a descriptive "no signals available"
condition. -/
theorem no_signals_error_counterexample :
    (Backtester.new []).add_data noSigStock = Except.error "division by zero" ∧
      "division by zero" ≠ "no signals available" := by
  have hc : (signalIndices noSigStock.data).length = 0 := by
    rw [show signalIndices noSigStock.data = [] from signalIndices_demoNoSig,
      List.length_nil]
  constructor
  · rw [Backtester.add_data, if_pos hc]
  · decide

/-- C8 witness: the no-signal stock discharges the amended theorem. -/
theorem no_signals_division_by_zero_witness :
    signalIndices noSigStock.data = [] ∧
      (Backtester.new []).add_data noSigStock = Except.error "division by zero" :=
  ⟨signalIndices_demoNoSig,
    no_signals_division_by_zero (Backtester.new []) noSigStock signalIndices_demoNoSig⟩

/-- Helper: the losing demo series has exactly one signal, at row 0. -/
theorem signalIndices_demoLose : signalIndices demoLoseSeries = [0] := by
  norm_num [signalIndices, demoLoseSeries, List.filter]

/-- Helper: the winning demo series has exactly one signal, at row 0. -/
theorem signalIndices_demoWin : signalIndices demoWinSeries = [0] := by
  norm_num [signalIndices, demoWinSeries, List.filter, List.range_succ]

/-- Helper: full grid-search evaluation on the losing demo series: no trial
ever wins, so the final accuracy is 0 (the money 10 comes from the negative
`money_lost` of the immediate stop-outs under stop ratio 1). -/
theorem gridSearch_demoLose :
    gridSearch demoLoseSeries (signalIndices demoLoseSeries) = ⟨0, 10, some (3, 1)⟩ := by
  rw [signalIndices_demoLose]
  norm_num [gridSearch, gridStep, trialResult, trialAccuracy, simulateSignal, walk,
    walkFrom, profit_ratios, stop_ratios, initSearch, closeAt, emaAt, get_stop_loss,
    get_take_profit, demoLoseSeries]

/-- Helper: full grid-search evaluation on the winning demo series: the last
replacement is the trial (stop 0.99, profit 2) with win rate 1 and money 198. -/
theorem gridSearch_demoWin :
    gridSearch demoWinSeries (signalIndices demoWinSeries) = ⟨1, 198, some (2, 0.99)⟩ := by
  rw [signalIndices_demoWin]
  norm_num [gridSearch, gridStep, trialResult, trialAccuracy, simulateSignal, walk,
    walkFrom, profit_ratios, stop_ratios, initSearch, closeAt, emaAt, get_stop_loss,
    get_take_profit, demoWinSeries]

/-- Helper: the losing demo series is not viable. -/
theorem viable_demoLose : viable demoLoseSeries = false := by
  rw [viable, gridSearch_demoLose]
  simp

/-- Helper: the winning demo series is viable. -/
theorem viable_demoWin : viable demoWinSeries = true := by
  rw [viable, gridSearch_demoWin]
  simp

/-- Helper: `add_data` on any stock carrying the losing demo series appends
the stock to `remove_stocks` and changes nothing else. -/
theorem add_data_lose_data (bt : Backtester) (stock : MACD_Strategy)
    (hd : stock.data = demoLoseSeries) :
    bt.add_data stock =
      Except.ok { bt with remove_stocks := bt.remove_stocks ++ [stock] } := by
  have hsig : signalIndices stock.data ≠ [] := by
    rw [hd, signalIndices_demoLose]
    exact List.cons_ne_nil 0 []
  rw [add_data_eq_of_signals bt stock hsig, hd, viable_demoLose]
  simp only [Bool.false_eq_true, if_false]

/-- Helper: `add_data` on any stock carrying the winning demo series appends
profit ratio 2, stop ratio 0.99, win rate 1 and money 198. -/
theorem add_data_win_data (bt : Backtester) (stock : MACD_Strategy)
    (hd : stock.data = demoWinSeries) :
    bt.add_data stock =
      Except.ok { bt with
        optimal_profit_ratio := bt.optimal_profit_ratio ++ [2],
        optimal_risk_ratio := bt.optimal_risk_ratio ++ [0.99],
        winrates := bt.winrates ++ [1],
        money_made := bt.money_made ++ [198] } := by
  have hsig : signalIndices stock.data ≠ [] := by
    rw [hd, signalIndices_demoWin]
    exact List.cons_ne_nil 0 []
  rw [add_data_eq_of_signals bt stock hsig, hd, viable_demoWin, if_pos rfl,
    gridSearch_demoWin]
  norm_num

/-- Demo stock carrying the losing series. -/
def demoLose : MACD_Strategy := MACD_Strategy.new "TSLA" demoLoseSeries

/-- Demo stock carrying the winning series. -/
def demoWin : MACD_Strategy := MACD_Strategy.new "AAPL" demoWinSeries

/-- C4: An instrument whose grid search ends with best win rate exactly zero
is appended to the removal list and adds no entry to any outcome list; an
instrument with nonzero best win rate appends exactly one entry to each of
the four outcome lists and is not flagged for removal. -/
theorem zero_win_rate_marks_removal (bt : Backtester) (stock : MACD_Strategy)
    (h : signalIndices stock.data ≠ []) :
    ((gridSearch stock.data (signalIndices stock.data)).greatest_accuracy = 0 →
      bt.add_data stock =
        Except.ok { bt with remove_stocks := bt.remove_stocks ++ [stock] }) ∧
    ((gridSearch stock.data (signalIndices stock.data)).greatest_accuracy ≠ 0 →
      ∃ p r, bt.add_data stock =
        Except.ok { bt with
          optimal_profit_ratio := bt.optimal_profit_ratio ++ [p],
          optimal_risk_ratio := bt.optimal_risk_ratio ++ [r],
          winrates := bt.winrates ++
            [(gridSearch stock.data (signalIndices stock.data)).greatest_accuracy],
          money_made := bt.money_made ++
            [(gridSearch stock.data (signalIndices stock.data)).greatest_money] }) := by
  constructor
  · intro hz
    have he := add_data_eq_of_signals bt stock h
    rw [if_neg (by simp [viable, hz])] at he
    exact he
  · intro hnz
    have he := add_data_eq_of_signals bt stock h
    rw [if_pos (by simp only [viable, decide_eq_true_eq]; exact hnz)] at he
    exact ⟨_, _, he⟩

/-- C4 witness: the losing demo stock is flagged for removal with no outcome
appended. -/
theorem zero_win_rate_marks_removal_witness :
    signalIndices demoLose.data ≠ [] ∧
      (gridSearch demoLose.data (signalIndices demoLose.data)).greatest_accuracy = 0 ∧
      (Backtester.new []).add_data demoLose =
        Except.ok { Backtester.new [] with
          remove_stocks := (Backtester.new []).remove_stocks ++ [demoLose] } := by
  have hsig : signalIndices demoLose.data ≠ [] := by
    rw [show demoLose.data = demoLoseSeries from rfl, signalIndices_demoLose]
    exact List.cons_ne_nil 0 []
  have hz : (gridSearch demoLose.data (signalIndices demoLose.data)).greatest_accuracy = 0 := by
    rw [show demoLose.data = demoLoseSeries from rfl, gridSearch_demoLose]
  exact ⟨hsig, hz, (zero_win_rate_marks_removal (Backtester.new []) demoLose hsig).1 hz⟩

/-- C6 (amended): a successful grid search (`add_data`) leaves the
tracked-instrument list unchanged, but it does mutate the Universe itself:
it either appends exactly one entry to each of the four parallel outcome
lists (removal list unchanged) or appends the instrument to the removal
list (outcome lists unchanged); only the removal from the tracked list is
left to the caller. -/
theorem add_data_mutation_profile (bt : Backtester) (stock : MACD_Strategy)
    (b' : Backtester) (h : bt.add_data stock = Except.ok b') :
    b'.stocks = bt.stocks ∧
    ((b'.remove_stocks = bt.remove_stocks ∧ ∃ p r a m,
        b'.optimal_profit_ratio = bt.optimal_profit_ratio ++ [p] ∧
        b'.optimal_risk_ratio = bt.optimal_risk_ratio ++ [r] ∧
        b'.winrates = bt.winrates ++ [a] ∧
        b'.money_made = bt.money_made ++ [m]) ∨
      (b'.optimal_profit_ratio = bt.optimal_profit_ratio ∧
        b'.optimal_risk_ratio = bt.optimal_risk_ratio ∧
        b'.winrates = bt.winrates ∧
        b'.money_made = bt.money_made ∧
        b'.remove_stocks = bt.remove_stocks ++ [stock])) := by
  obtain ⟨-, hcase⟩ := add_data_ok_elim bt stock b' h
  rcases hcase with ⟨-, rfl⟩ | ⟨-, rfl⟩
  · exact ⟨rfl, Or.inl ⟨rfl, _, _, _, _, rfl, rfl, rfl, rfl⟩⟩
  · exact ⟨rfl, Or.inr ⟨rfl, rfl, rfl, rfl, rfl⟩⟩

/-- C6 witness: `add_data` on the losing demo stock leaves the tracked list
unchanged. -/
theorem add_data_mutation_profile_witness :
    (Backtester.new []).add_data demoLose =
      Except.ok (⟨[], [], [], [], [], [demoLose]⟩ : Backtester) ∧
      (⟨[], [], [], [], [], [demoLose]⟩ : Backtester).stocks = (Backtester.new []).stocks := by
  have h : (Backtester.new []).add_data demoLose =
      Except.ok (⟨[], [], [], [], [], [demoLose]⟩ : Backtester) :=
    add_data_lose_data (Backtester.new []) demoLose rfl
  exact ⟨h, (add_data_mutation_profile (Backtester.new []) demoLose _ h).1⟩

/-- C6 counterexample: `add_data` on the winning demo stock does mutate the
Universe state — every parallel outcome list changes, so the grid search is
not free of side effects on the Universe. -/
theorem add_data_side_effect_counterexample :
    (Backtester.new []).add_data demoWin =
      Except.ok (⟨[], [2], [0.99], [1], [198], []⟩ : Backtester) ∧
      (⟨[], [2], [0.99], [1], [198], []⟩ : Backtester) ≠ Backtester.new [] := by
  constructor
  · exact add_data_win_data (Backtester.new []) demoWin rfl
  · intro hcontra
    have := congrArg Backtester.winrates hcontra
    simp [Backtester.new] at this

/-- Helper: binding a successful `Except` computation applies the
continuation. -/
theorem except_ok_bind {ε α β : Type} (a : α) (f : α → Except ε β) :
    (Except.ok a >>= f) = f a := rfl

/-- Helper: binding a failed `Except` computation propagates the error. -/
theorem except_error_bind {ε α β : Type} (e : ε) (f : α → Except ε β) :
    ((Except.error e : Except ε α) >>= f) = Except.error e := rfl

/-- Helper: a successful `add_data` pass over a stock list leaves the stock
list unchanged, appends exactly the unviable stocks (in order) to
`remove_stocks`, and grows each of the four outcome lists by one entry per
viable stock. -/
theorem foldlM_add_data_ok (l : List MACD_Strategy) :
    ∀ b b1 : Backtester,
      l.foldlM (fun x s => x.add_data s) b = Except.ok b1 →
      b1.stocks = b.stocks ∧
      b1.remove_stocks = b.remove_stocks ++ l.filter (fun s => !viable s.data) ∧
      b1.winrates.length =
        b.winrates.length + (l.filter (fun s => viable s.data)).length ∧
      b1.optimal_profit_ratio.length =
        b.optimal_profit_ratio.length + (l.filter (fun s => viable s.data)).length ∧
      b1.optimal_risk_ratio.length =
        b.optimal_risk_ratio.length + (l.filter (fun s => viable s.data)).length ∧
      b1.money_made.length =
        b.money_made.length + (l.filter (fun s => viable s.data)).length := by
  induction l with
  | nil =>
    intro b b1 h
    rw [List.foldlM_nil] at h
    cases Except.ok.inj h
    simp
  | cons s l ih =>
    intro b b1 h
    rw [List.foldlM_cons] at h
    cases had : b.add_data s with
    | error e =>
      rw [had, except_error_bind] at h
      exact Except.noConfusion h
    | ok b2 =>
      rw [had, except_ok_bind] at h
      obtain ⟨hst, hrm, hw, hp, hr, hm⟩ := ih b2 b1 h
      obtain ⟨-, hcase⟩ := add_data_ok_elim b s b2 had
      rcases hcase with ⟨hv, rfl⟩ | ⟨hv, rfl⟩
      · refine ⟨hst, ?_, ?_, ?_, ?_, ?_⟩ <;>
          simp_all [List.filter_cons, hv, List.length_append] <;> omega
      · refine ⟨hst, ?_, ?_, ?_, ?_, ?_⟩ <;>
          simp_all [List.filter_cons, hv, List.length_append]

/-- Helper: erasing elements all different from the head leaves the head in
place. -/
theorem foldl_erase_cons {α : Type} [DecidableEq α] (x : α) (ys : List α) :
    ∀ xs : List α, (∀ y ∈ ys, y ≠ x) →
      ys.foldl (fun l s => l.erase s) (x :: xs) =
        x :: ys.foldl (fun l s => l.erase s) xs := by
  induction ys with
  | nil => intro xs _; rfl
  | cons y ys ih =>
    intro xs h
    have hyx : ¬(x == y) := by
      simp only [beq_iff_eq]
      exact fun hxy => (h y (List.mem_cons_self y ys)) hxy.symm
    rw [List.foldl_cons, List.foldl_cons, List.erase_cons_tail hyx]
    exact ih (xs.erase y) (fun z hz => h z (List.mem_cons_of_mem y hz))

/-- Helper: `list.remove`-ing, in order, every element failing a predicate
from the list itself keeps exactly the elements satisfying the predicate. -/
theorem foldl_erase_filter {α : Type} [DecidableEq α] (p : α → Bool) (xs : List α) :
    (xs.filter (fun x => !p x)).foldl (fun l s => l.erase s) xs = xs.filter p := by
  induction xs with
  | nil => rfl
  | cons x xs ih =>
    by_cases hx : p x
    · rw [List.filter_cons_of_neg (by simp [hx]), List.filter_cons_of_pos (by simp [hx])]
      rw [foldl_erase_cons x _ xs ?hne, ih]
      case hne =>
        intro y hy hyx
        have hpy := List.mem_filter.mp hy
        rw [hyx] at hpy
        simp [hx] at hpy
    · rw [List.filter_cons_of_pos (by simp [hx]), List.filter_cons_of_neg (by simp [hx])]
      rw [List.foldl_cons, List.erase_cons_head]
      exact ih

/-- C5 (amended): after a completed `execute` (runFull) call, the tracked
stock list and the four parallel outcome lists all have the same length;
the invariant is established by `execute` itself, regardless of the prior
state. -/
theorem execute_aligns_outcome_lengths (bt bt' : Backtester)
    (h : bt.execute = Except.ok bt') :
    bt'.stocks.length = bt'.winrates.length ∧
    bt'.stocks.length = bt'.optimal_profit_ratio.length ∧
    bt'.stocks.length = bt'.optimal_risk_ratio.length ∧
    bt'.stocks.length = bt'.money_made.length := by
  rw [Backtester.execute] at h
  split at h
  · exact Except.noConfusion h
  · next bt1 heq =>
    cases Except.ok.inj h
    obtain ⟨hst, hrm, hw, hp, hr, hm⟩ := foldlM_add_data_ok bt.stocks bt.cleared bt1 heq
    have hclear : bt.cleared.stocks = bt.stocks := rfl
    rw [hclear] at hst
    have harr : bt1.remove_stocks.foldl (fun l s => l.erase s) bt1.stocks =
        bt.stocks.filter (fun s => viable s.data) := by
      rw [hrm, hst]
      have : bt.cleared.remove_stocks = [] := rfl
      rw [this, List.nil_append]
      apply foldl_erase_filter
    refine ⟨?_, ?_, ?_, ?_⟩
    · rw [harr, hw]
      simp [Backtester.cleared]
    · rw [harr, hp]
      simp [Backtester.cleared]
    · rw [harr, hr]
      simp [Backtester.cleared]
    · rw [harr, hm]
      simp [Backtester.cleared]

/-- Helper: `execute` unfolded on a successful `add_data` pass. -/
theorem execute_eq_ok (bt bt1 : Backtester)
    (hf : bt.stocks.foldlM (fun b s => b.add_data s) bt.cleared = Except.ok bt1) :
    bt.execute = Except.ok { bt1 with
      stocks := bt1.remove_stocks.foldl (fun l s => l.erase s) bt1.stocks } := by
  rw [Backtester.execute, hf]

/-- Helper: full evaluation of `execute` on a universe holding only the losing
demo stock: the stock is flagged and then removed from the stock list, and no
outcome is recorded. -/
theorem execute_demoLose :
    (Backtester.new [demoLose]).execute =
      Except.ok (⟨[], [], [], [], [], [demoLose]⟩ : Backtester) := by
  have hf : (Backtester.new [demoLose]).stocks.foldlM (fun b s => b.add_data s)
      (Backtester.new [demoLose]).cleared =
      Except.ok (⟨[demoLose], [], [], [], [], [demoLose]⟩ : Backtester) := by
    rw [show (Backtester.new [demoLose]).stocks = [demoLose] from rfl,
      List.foldlM_cons, add_data_lose_data _ demoLose rfl, except_ok_bind,
      List.foldlM_nil]
    rfl
  rw [execute_eq_ok _ _ hf]
  rw [show (⟨[demoLose], [], [], [], [], [demoLose]⟩ : Backtester).remove_stocks =
    [demoLose] from rfl]
  rw [show (⟨[demoLose], [], [], [], [], [demoLose]⟩ : Backtester).stocks =
    [demoLose] from rfl]
  rw [List.foldl_cons, List.erase_cons_head, List.foldl_nil]

/-- Helper: full evaluation of `execute` on a universe holding only the
winning demo stock: one outcome is recorded and the stock list is kept. -/
theorem execute_demoWin :
    (Backtester.new [demoWin]).execute =
      Except.ok (⟨[demoWin], [2], [0.99], [1], [198], []⟩ : Backtester) := by
  have hf : (Backtester.new [demoWin]).stocks.foldlM (fun b s => b.add_data s)
      (Backtester.new [demoWin]).cleared =
      Except.ok (⟨[demoWin], [2], [0.99], [1], [198], []⟩ : Backtester) := by
    rw [show (Backtester.new [demoWin]).stocks = [demoWin] from rfl,
      List.foldlM_cons, add_data_win_data _ demoWin rfl, except_ok_bind,
      List.foldlM_nil]
    rfl
  rw [execute_eq_ok _ _ hf]
  rw [show (⟨[demoWin], [2], [0.99], [1], [198], []⟩ : Backtester).remove_stocks =
    [] from rfl]
  rw [List.foldl_nil]

/-- C5 witness: after `execute` on the losing demo universe, the stock list
and the win-rate list have equal length (both empty). -/
theorem execute_aligns_outcome_lengths_witness :
    (Backtester.new [demoLose]).execute =
      Except.ok (⟨[], [], [], [], [], [demoLose]⟩ : Backtester) ∧
      (⟨[], [], [], [], [], [demoLose]⟩ : Backtester).stocks.length =
        (⟨[], [], [], [], [], [demoLose]⟩ : Backtester).winrates.length :=
  ⟨execute_demoLose, (execute_aligns_outcome_lengths _ _ execute_demoLose).1⟩

/-- C5 counterexample: running `execute` (runFull) and then `remove_stock 0`
(removeInstrument) leaves one tracked stock but zero win-rate entries, so the
claimed invariant `len(stocks) == len(outcomes)` fails after the sequence:
`remove_stock` pops only the four outcome lists and never touches `stocks`. -/
theorem universe_desync_counterexample :
    ((Backtester.new [demoWin]).execute >>= fun b => b.remove_stock 0) =
      Except.ok (⟨[demoWin], [], [], [], [], []⟩ : Backtester) ∧
      (⟨[demoWin], [], [], [], [], []⟩ : Backtester).stocks.length ≠
        (⟨[demoWin], [], [], [], [], []⟩ : Backtester).winrates.length := by
  constructor
  · rw [execute_demoWin, except_ok_bind, Backtester.remove_stock]
    rw [if_pos (by norm_num)]
    rfl
  · simp


/-- Helper: `set_last_params` on a state with known last entries. -/
theorem set_last_params_eq (bt1 : Backtester) (last : MACD_Strategy) (p r w : ℚ)
    (h1 : bt1.stocks.getLast? = some last)
    (h2 : bt1.optimal_profit_ratio.getLast? = some p)
    (h3 : bt1.optimal_risk_ratio.getLast? = some r)
    (h4 : bt1.winrates.getLast? = some w) :
    set_last_params bt1 = Except.ok { bt1 with
      stocks := bt1.stocks.dropLast ++
        [{ last with ratio := p, stop_loss_percentage := r, winrate := w }] } := by
  rw [set_last_params, h1, h2, h3, h4]

/-- Helper: a successful `add_stock` factors into a successful `add_data`
followed by a successful `set_last_params`. -/
theorem add_stock_ok_elim (bt : Backtester) (stock : MACD_Strategy) (b' : Backtester)
    (h : bt.add_stock stock = Except.ok b') :
    ∃ bt1, bt.add_data stock = Except.ok bt1 ∧ set_last_params bt1 = Except.ok b' := by
  rw [Backtester.add_stock] at h
  cases had : bt.add_data stock with
  | error e =>
    rw [had] at h
    exact Except.noConfusion h
  | ok bt1 =>
    rw [had] at h
    exact ⟨bt1, rfl, h⟩

/-- Helper: a successful `set_last_params` exposes the four last entries and
the updated state. -/
theorem set_last_params_ok_elim (bt1 b' : Backtester)
    (h : set_last_params bt1 = Except.ok b') :
    ∃ last p r w, bt1.stocks.getLast? = some last ∧
      bt1.optimal_profit_ratio.getLast? = some p ∧
      bt1.optimal_risk_ratio.getLast? = some r ∧
      bt1.winrates.getLast? = some w ∧
      b' = { bt1 with
        stocks := bt1.stocks.dropLast ++
          [{ last with ratio := p, stop_loss_percentage := r, winrate := w }] } := by
  rw [set_last_params] at h
  split at h
  · next last p r w h1 h2 h3 h4 =>
    exact ⟨last, p, r, w, h1, h2, h3, h4, (Except.ok.inj h).symm⟩
  · next =>
    exact Except.noConfusion h

/-- C7 (amended): when `add_stock` succeeds after a viable search, it appends
the new outcome and writes the freshly appended stop ratio, profit ratio and
win rate into the last tracked stock (which is the new instrument only under
the caller's convention of appending it to the shared stock list first);
when the search is unviable, the configuration is not left unset: the last
tracked stock's parameters are overwritten with the last pre-existing entries
of the outcome lists — stale values from an earlier instrument — and the call
fails when no such entries exist. -/
theorem add_stock_applies_last_outcome (bt : Backtester) (stock : MACD_Strategy)
    (b' : Backtester) (h : bt.add_stock stock = Except.ok b') :
    (viable stock.data = true →
      b'.winrates = bt.winrates ++
        [(gridSearch stock.data (signalIndices stock.data)).greatest_accuracy] ∧
      ∃ last, b'.stocks.getLast? = some last ∧
        last.winrate = (gridSearch stock.data (signalIndices stock.data)).greatest_accuracy ∧
        (gridSearch stock.data (signalIndices stock.data)).best =
          some (last.ratio, last.stop_loss_percentage)) ∧
    (viable stock.data = false →
      b'.winrates = bt.winrates ∧
      b'.remove_stocks = bt.remove_stocks ++ [stock] ∧
      ∃ last, b'.stocks.getLast? = some last ∧
        bt.optimal_profit_ratio.getLast? = some last.ratio ∧
        bt.optimal_risk_ratio.getLast? = some last.stop_loss_percentage ∧
        bt.winrates.getLast? = some last.winrate) := by
  obtain ⟨bt1, had, hset⟩ := add_stock_ok_elim bt stock b' h
  obtain ⟨last, p, r, w, h1, h2, h3, h4, rfl⟩ := set_last_params_ok_elim bt1 _ hset
  obtain ⟨-, hcase⟩ := add_data_ok_elim bt stock bt1 had
  rcases hcase with ⟨hv, hrec⟩ | ⟨hv, hrec⟩
  · subst hrec
    refine ⟨fun _ => ?_, fun hfalse => by rw [hv] at hfalse; exact Bool.noConfusion hfalse⟩
    have hacc : (gridSearch stock.data (signalIndices stock.data)).greatest_accuracy ≠ 0 := by
      simpa [viable] using hv
    obtain ⟨pr, hpr⟩ := Option.isSome_iff_exists.mp
      (gridSearch_best_isSome stock.data (signalIndices stock.data) hacc)
    have h2a : (bt.optimal_profit_ratio ++
        [((gridSearch stock.data (signalIndices stock.data)).best.getD (0, 0)).1]).getLast?
        = some p := h2
    have h3a : (bt.optimal_risk_ratio ++
        [((gridSearch stock.data (signalIndices stock.data)).best.getD (0, 0)).2]).getLast?
        = some r := h3
    have h4a : (bt.winrates ++
        [(gridSearch stock.data (signalIndices stock.data)).greatest_accuracy]).getLast?
        = some w := h4
    rw [List.getLast?_concat] at h2a h3a h4a
    have hp := h2a
    have hr := h3a
    have hw := h4a
    refine ⟨rfl, { last with ratio := p, stop_loss_percentage := r, winrate := w },
      List.getLast?_concat _, (Option.some.inj hw).symm, ?_⟩
    rw [hpr]
    rw [show ({ last with ratio := p, stop_loss_percentage := r, winrate := w }
      : MACD_Strategy).ratio = p from rfl]
    rw [show ({ last with ratio := p, stop_loss_percentage := r, winrate := w }
      : MACD_Strategy).stop_loss_percentage = r from rfl]
    rw [← Option.some.inj hp, ← Option.some.inj hr, hpr]
    rw [show (some pr).getD ((0 : ℚ), (0 : ℚ)) = pr from rfl]
  · subst hrec
    refine ⟨fun htrue => by rw [hv] at htrue; exact Bool.noConfusion htrue, fun _ => ?_⟩
    exact ⟨rfl, rfl, { last with ratio := p, stop_loss_percentage := r, winrate := w },
      List.getLast?_concat _, h2, h3, h4⟩

/-- Demo stock with an existing outcome, mirroring an instrument processed
earlier. -/
def oldS : MACD_Strategy := MACD_Strategy.new "AAPL" demoWinSeries

/-- Demo stock newly appended by the caller (so it sits last in the shared
stock list) whose grid search is unviable. -/
def newS : MACD_Strategy := MACD_Strategy.new "NVDA" demoLoseSeries

/-- Backtester state right before `add_stock newS`: the caller has appended
`newS` to the tracked list, and the outcome lists still hold only `oldS`'s
outcome. -/
def btPrior : Backtester := ⟨[oldS, newS], [1.25], [0.96], [0.8], [100], []⟩

/-- The new stock after `add_stock`: its configuration was overwritten with
`oldS`'s stale outcome (profit ratio 1.25, stop ratio 0.96, win rate 0.8)
even though its own search produced no outcome. -/
def staleNewS : MACD_Strategy := ⟨"NVDA", demoLoseSeries, 1.25, 0.96, 0.8⟩

/-- The full state after `add_stock newS` on `btPrior`. -/
def btAfterStale : Backtester :=
  ⟨[oldS, staleNewS], [1.25], [0.96], [0.8], [100], [newS]⟩

/-- Helper: full evaluation of `add_stock` on the unviable new stock. -/
theorem add_stock_btPrior : btPrior.add_stock newS = Except.ok btAfterStale := by
  have had : btPrior.add_data newS =
      Except.ok (⟨[oldS, newS], [1.25], [0.96], [0.8], [100], [newS]⟩ : Backtester) :=
    add_data_lose_data btPrior newS rfl
  have hstep : btPrior.add_stock newS =
      set_last_params (⟨[oldS, newS], [1.25], [0.96], [0.8], [100], [newS]⟩ : Backtester) := by
    rw [Backtester.add_stock, had]
  rw [hstep, set_last_params_eq
    (⟨[oldS, newS], [1.25], [0.96], [0.8], [100], [newS]⟩ : Backtester)
    newS 1.25 0.96 0.8 rfl rfl rfl rfl]
  rfl

/-- C7 counterexample: after `add_stock` of an instrument with no viable
configuration, the instrument's configuration is not left unset — its profit
ratio has been overwritten with the stale last outcome entry 1.25, which
differs from its pre-call value 1.5. -/
theorem add_stock_stale_parameters_counterexample :
    btPrior.add_stock newS = Except.ok btAfterStale ∧
      staleNewS.ratio ≠ newS.ratio := by
  refine ⟨add_stock_btPrior, ?_⟩
  norm_num [staleNewS, newS, MACD_Strategy.new]

/-- C7 witness: the unviable branch of the amended theorem at the concrete
stale-parameter state. -/
theorem add_stock_applies_last_outcome_witness :
    btPrior.add_stock newS = Except.ok btAfterStale ∧
      viable newS.data = false ∧
      (btAfterStale.winrates = btPrior.winrates ∧
        btAfterStale.remove_stocks = btPrior.remove_stocks ++ [newS] ∧
        ∃ last, btAfterStale.stocks.getLast? = some last ∧
          btPrior.optimal_profit_ratio.getLast? = some last.ratio ∧
          btPrior.optimal_risk_ratio.getLast? = some last.stop_loss_percentage ∧
          btPrior.winrates.getLast? = some last.winrate) := by
  have hv : viable newS.data = false := viable_demoLose
  exact ⟨add_stock_btPrior, hv,
    (add_stock_applies_last_outcome btPrior newS btAfterStale add_stock_btPrior).2 hv⟩
